import Mathlib

/-!
Verification development for the Telugu dwipada prosody engine
(`dwipada_analyzer.py` / `aksharanusarika.py`).

Strings are modelled as `List Char`; every Python function of the core is
translated to an executable Lean definition operating on `List Char` /
`List (List Char)`.  Membership tables are `List Char` mirroring the Python
sets; dictionary results are Lean structures.  Loops with data-dependent
strides are given an explicit fuel argument (always instantiated with the
input length, which is provably sufficient), keeping every definition
structurally recursive and kernel-evaluable.
-/

/-! ## Symbol tables (module-level constants of both source files) -/

def halant : Char := '్'

def telugu_consonants : List Char :=
  ['క', 'ఖ', 'గ', 'ఘ', 'ఙ', 'చ', 'ఛ', 'జ', 'ఝ', 'ఞ',
   'ట', 'ఠ', 'డ', 'ఢ', 'ణ', 'త', 'థ', 'ద', 'ధ', 'న',
   'ప', 'ఫ', 'బ', 'భ', 'మ', 'య', 'ర', 'ల', 'వ', 'శ',
   'ష', 'స', 'హ', 'ళ', 'ఱ']

def long_vowels : List Char := ['ా', 'ీ', 'ూ', 'ే', 'ో', 'ౌ', 'ౄ']

def independent_vowels : List Char :=
  ['అ', 'ఆ', 'ఇ', 'ఈ', 'ఉ', 'ఊ', 'ఋ', 'ౠ',
   'ఎ', 'ఏ', 'ఐ', 'ఒ', 'ఓ', 'ఔ']

def independent_long_vowels : List Char := ['ఆ', 'ఈ', 'ఊ', 'ౠ', 'ఏ', 'ఓ']

def diacritics : List Char := ['ం', 'ః']

/-- The `dependent_to_independent` mapping (keys are the dependent-vowel signs). -/
def dependent_to_independent : List (Char × Char) :=
  [('ా', 'ఆ'), ('ి', 'ఇ'), ('ీ', 'ఈ'), ('ు', 'ఉ'), ('ూ', 'ఊ'), ('ృ', 'ఋ'),
   ('ౄ', 'ౠ'), ('ె', 'ఎ'), ('ే', 'ఏ'), ('ై', 'ఐ'), ('ొ', 'ఒ'), ('ో', 'ఓ'), ('ౌ', 'ఔ')]

def dependent_vowels : List Char := dependent_to_independent.map (·.1)

/-- space, newline, arasunna (U+0C01), zero-width space (U+200B). -/
def ignorable_chars : List Char := [' ', '\n', 'ఁ', Char.ofNat 0x200B]

/-! ## Chunk-level predicates

In the Python source a *string* is tested for membership in a set of single
*characters* (e.g. `aksharam in ignorable_chars`); that holds exactly for
one-character strings whose character is in the set. -/

/-- Test `chunk in ignorable_chars` for a string chunk. -/
def isIgnorableChunk : List Char → Bool
  | [c] => c ∈ ignorable_chars
  | _ => false

/-- Test `chunk in diacritics` for a string chunk. -/
def isDiacriticChunk : List Char → Bool
  | [c] => c ∈ diacritics
  | _ => false

/-- Test `chunk in independent_long_vowels` for a string chunk. -/
def isIndependentLongChunk : List Char → Bool
  | [c] => c ∈ independent_long_vowels
  | _ => false

/-! ## Akshara segmenter (`split_aksharalu`, identical in both files) -/

/-- The conjunct-chain loop of `split_aksharalu`: consumes `(virama, consonant)`
pairs; a virama not followed by a consonant is still consumed, then the chain
stops.  Returns (consumed characters, remaining input). -/
def takeHalantChain : List Char → List Char × List Char
  | [] => ([], [])
  | [c] => if c = halant then ([c], []) else ([], [c])
  | c :: d :: rest =>
    if c = halant then
      if d ∈ telugu_consonants then
        ((c :: d :: (takeHalantChain rest).1), (takeHalantChain rest).2)
      else ([c], d :: rest)
    else ([], c :: d :: rest)

/-- Loop `while i < n and word[i] in s: consume`. -/
def takeWhileMem (s : List Char) : List Char → List Char × List Char
  | [] => ([], [])
  | c :: rest =>
    if c ∈ s then ((c :: (takeWhileMem s rest).1), (takeWhileMem s rest).2)
    else ([], c :: rest)

/-- One iteration of the coarse-pass `while` loop of `split_aksharalu`:
given the current character and the rest of the input, produce the emitted
unit and the remaining input. -/
def nextChunk (c : Char) (rest : List Char) : List Char × List Char :=
  if c ∈ ignorable_chars then ([c], rest)
  else if c ∈ telugu_consonants then
    ((c :: ((takeHalantChain rest).1 ++
        (takeWhileMem (dependent_vowels ++ diacritics) (takeHalantChain rest).2).1)),
      (takeWhileMem (dependent_vowels ++ diacritics) (takeHalantChain rest).2).2)
  else
    match rest with
    | [] => ([c], [])
    | d :: rest2 =>
      if c ∈ independent_vowels ∧ d ∈ diacritics then ([c, d], rest2)
      else ([c], d :: rest2)

/-- Coarse pass of `split_aksharalu`, with fuel (the driver instantiates fuel
with the input length, which always suffices since each loop iteration
consumes at least one character). -/
def coarseSplitF : Nat → List Char → List (List Char)
  | _, [] => []
  | 0, _ :: _ => []
  | fuel + 1, c :: rest =>
    (nextChunk c rest).1 :: coarseSplitF fuel (nextChunk c rest).2

/-- Predicate `is_pollu_hallu`: a two-character chunk [consonant, virama]. -/
def isPolluChunk : List Char → Bool
  | [c, d] => c ∈ telugu_consonants ∧ d = halant
  | _ => false

/-- One step of the merge (second) pass of `split_aksharalu`; the accumulator
holds the output so far in reverse order. -/
def mergeStep (acc : List (List Char)) (chunk : List Char) : List (List Char) :=
  match acc with
  | [] => [chunk]
  | prev :: accRest =>
    if isPolluChunk chunk ∧ ¬ isIgnorableChunk prev then
      (prev ++ chunk) :: accRest
    else
      chunk :: prev :: accRest

/-- Merge pass of `split_aksharalu`. -/
def mergePass (chunks : List (List Char)) : List (List Char) :=
  (chunks.foldl mergeStep []).reverse

/-- Function `split_aksharalu` (identical in `dwipada_analyzer.py:638` and
`aksharanusarika.py:180`): coarse scan, then merge of pollu-hallu chunks,
then removal of empty entries. -/
def split_aksharalu (word : List Char) : List (List Char) :=
  let coarse := coarseSplitF word.length word
  if coarse = [] then []
  else (mergePass coarse).filter (fun ak => ak ≠ [])

/-! ## Akshara classifier (`categorize_aksharam`, `dwipada_analyzer.py:600`)

Tags are the Telugu category strings of the source.  The Python function
indexes `aksharam[0]` and therefore raises `IndexError` on the empty string;
this is modelled by an `Option` result (`none` = the exception). -/

/-- The conjunct/doubled-consonant scan of `categorize_aksharam`
(`for i in range(len(aksharam) - 2)`): returns
(found_conjunct, found_double). -/
def conjDoubleScan : List Char → Bool × Bool
  | [] => (false, false)
  | c1 :: rest =>
    let p := conjDoubleScan rest
    match rest with
    | c2 :: c3 :: _ =>
      if c1 ∈ telugu_consonants ∧ c2 = halant ∧ c3 ∈ telugu_consonants then
        if c1 = c3 then (p.1, true) else (true, p.2)
      else p
    | _ => p

/-- Total core of `categorize_aksharam` for a non-empty chunk.  The Python
function builds a `set` of tag strings; it is modelled as a `List String`
(each tag is added at most once here, and only membership and — after an
explicit `dedup` — cardinality are ever used downstream, so the list carries
the same information as the set).  (The `[]` case is unreachable through
`categorize_aksharam`.) -/
def aksharamTags (a : List Char) : List String :=
  match a with
  | [] => []
  | c :: _ =>
    (if c ∈ independent_vowels ∨ isDiacriticChunk a then ["అచ్చు"] else []) ++
    (if a.any (fun ch => ch ∈ telugu_consonants) then ["హల్లు"] else []) ++
    (if long_vowels.any (fun dv => dv ∈ a) ∨ isIndependentLongChunk a then ["దీర్ఘ"] else []) ++
    (if 'ః' ∈ a then ["విసర్గ అక్షరం"] else []) ++
    (if 'ం' ∈ a then ["అనుస్వారం"] else []) ++
    (if (conjDoubleScan a).1 then ["సంయుక్తాక్షరం"] else []) ++
    (if (conjDoubleScan a).2 then ["ద్విత్వాక్షరం"] else [])

/-- Function `categorize_aksharam` (dwipada version): `none` models the `IndexError`
raised by `aksharam[0]` on the empty string. -/
def categorize_aksharam (a : List Char) : Option (List String) :=
  match a with
  | [] => none
  | _ :: _ => some (aksharamTags a)

/-! ## Guru/Laghu assigner (`akshara_ganavibhajana`, `dwipada_analyzer.py:688`) -/

/-- A weight marker: "U", "I" or "" in the source. -/
inductive GLMarker where
  | guru
  | laghu
  | emptyMark
deriving DecidableEq, Inhabited

def gU : GLMarker := GLMarker.guru
def gI : GLMarker := GLMarker.laghu

/-- Python `aksharam.endswith(halant)`. -/
def endsWithHalant (a : List Char) : Bool := a.getLast? = some halant

/-- First pass of `akshara_ganavibhajana`: the intrinsic weight of one
akshara. -/
def pass1marker (a : List Char) : GLMarker :=
  if isIgnorableChunk a then GLMarker.emptyMark
  else
    if "దీర్ఘ" ∈ aksharamTags a
        ∨ ('ఐ' ∈ a ∨ 'ఔ' ∈ a ∨ 'ై' ∈ a ∨ 'ౌ' ∈ a)
        ∨ ("అనుస్వారం" ∈ aksharamTags a ∨ "విసర్గ అక్షరం" ∈ aksharamTags a)
        ∨ endsWithHalant a
    then GLMarker.guru else GLMarker.laghu

/-- Find the tag set of the next non-ignorable akshara (the inner `for j`
loop of the second pass). -/
def nextNonIgnTags : List (List Char) → Option (List String)
  | [] => none
  | a :: rest =>
    if isIgnorableChunk a then nextNonIgnTags rest else some (aksharamTags a)

/-- Second pass of `akshara_ganavibhajana`: an akshara followed (skipping
ignorables) by a conjunct or doubled consonant is promoted to Guru. -/
def pass2 : List (List Char) → List GLMarker → List GLMarker
  | _, [] => []
  | [], ms => ms
  | _ :: aks, m :: ms =>
    (if m = GLMarker.emptyMark then m
     else
       match nextNonIgnTags aks with
       | some tags =>
         if "సంయుక్తాక్షరం" ∈ tags ∨ "ద్విత్వాక్షరం" ∈ tags then GLMarker.guru else m
       | none => m) :: pass2 aks ms

/-- Function `akshara_ganavibhajana`: `none` models the `IndexError` propagated from
`categorize_aksharam` when the list contains an empty string (empty strings
are not ignorable, so the first pass categorizes them and raises). -/
def akshara_ganavibhajana (l : List (List Char)) : Option (List GLMarker) :=
  if [] ∈ l then none
  else some (pass2 l (l.map pass1marker))

/-! ## Gana tables and `identify_gana` (`dwipada_analyzer.py:579`) -/

inductive GanaType where
  | indra
  | surya
  | unknown
deriving DecidableEq, Inhabited

/-- Indra Gana patterns (keys "IIII", "IIIU", ... as marker lists). -/
def INDRA_GANAS : List (List GLMarker × String) :=
  [([gI, gI, gI, gI], "Nala (నల)"),
   ([gI, gI, gI, gU], "Naga (నగ)"),
   ([gI, gI, gU, gI], "Sala (సల)"),
   ([gU, gI, gI], "Bha (భ)"),
   ([gU, gI, gU], "Ra (ర)"),
   ([gU, gU, gI], "Ta (త)")]

/-- Surya Gana patterns. -/
def SURYA_GANAS : List (List GLMarker × String) :=
  [([gI, gI, gI], "Na (న)"),
   ([gU, gI], "Ha/Gala (హ/గల)")]

/-- Function `identify_gana`: name and family of a pattern. -/
def identify_gana (p : List GLMarker) : Option String × GanaType :=
  match INDRA_GANAS.find? (fun e => e.1 = p) with
  | some e => (some e.2, GanaType.indra)
  | none =>
    match SURYA_GANAS.find? (fun e => e.1 = p) with
    | some e => (some e.2, GanaType.surya)
    | none => (none, GanaType.unknown)

/-! ## Dwipada partitioner (`find_dwipada_gana_partition`, `dwipada_analyzer.py:1011`) -/

/-- One entry of the `ganas` list of a partition dict.  The free-text
`error` string of the source (present exactly when `valid` is false) is
omitted; `valid` carries the same information. -/
structure GanaSeg where
  name : Option String
  pattern : List GLMarker
  aksharalu : List (List Char)
  expected_type : GanaType
  valid : Bool
deriving DecidableEq

/-- A partition dict (`partition_data` in the source; the two summary keys
`all_partitions_tried` / `valid_partitions_found` added to the returned
best partition are not modelled). -/
structure PartitionData where
  ganas : List GanaSeg
  total_syllables : Nat
  ganas_matched : Nat
  is_fully_valid : Bool
  partition_lengths : List Nat
deriving DecidableEq

/-- The 16 gana-length combinations in the fixed nested-loop order of the
source (`i1_len`, `i2_len`, `i3_len` over [3,4], `s_len` over [2,3]). -/
def ganaLengthCombos : List (Nat × Nat × Nat × Nat) :=
  ([3, 4]).flatMap (fun i1 =>
    ([3, 4]).flatMap (fun i2 =>
      ([3, 4]).flatMap (fun i3 =>
        ([2, 3]).map (fun s => (i1, i2, i3, s)))))

/-- Build `partition_data` for one length combination. -/
def buildPartition (ps : List GLMarker) (aks : List (List Char))
    (i1 i2 i3 s : Nat) : PartitionData :=
  let p1 := ps.take i1
  let p2 := (ps.drop i1).take i2
  let p3 := ((ps.drop i1).drop i2).take i3
  let p4 := (((ps.drop i1).drop i2).drop i3).take s
  let a1 := aks.take i1
  let a2 := (aks.drop i1).take i2
  let a3 := ((aks.drop i1).drop i2).take i3
  let a4 := (((aks.drop i1).drop i2).drop i3).take s
  let r1 := identify_gana p1
  let r2 := identify_gana p2
  let r3 := identify_gana p3
  let r4 := identify_gana p4
  let g1v : Bool := r1.2 = GanaType.indra
  let g2v : Bool := r2.2 = GanaType.indra
  let g3v : Bool := r3.2 = GanaType.indra
  let g4v : Bool := r4.2 = GanaType.surya
  let vc := (cond g1v 1 0) + (cond g2v 1 0) + (cond g3v 1 0) + (cond g4v 1 0)
  { ganas :=
      [⟨r1.1, p1, a1, GanaType.indra, g1v⟩,
       ⟨r2.1, p2, a2, GanaType.indra, g2v⟩,
       ⟨r3.1, p3, a3, GanaType.indra, g3v⟩,
       ⟨r4.1, p4, a4, GanaType.surya, g4v⟩],
    total_syllables := ps.length,
    ganas_matched := vc,
    is_fully_valid := vc = 4,
    partition_lengths := [i1, i2, i3, s] }

/-- All partitions attempted by the nested loops (combinations whose total
does not match the line length are skipped). -/
def attemptedPartitions (gana_markers : List GLMarker) (aksharalu : List (List Char)) :
    List PartitionData :=
  let pure_ganas := gana_markers.filter (fun m => m ≠ GLMarker.emptyMark)
  let pure_aksharalu := aksharalu.filter (fun ak => ¬ isIgnorableChunk ak)
  (ganaLengthCombos.filter
      (fun c => c.1 + c.2.1 + c.2.2.1 + c.2.2.2 = pure_ganas.length)).map
    (fun c => buildPartition pure_ganas pure_aksharalu c.1 c.2.1 c.2.2.1 c.2.2.2)

/-- Python's `max(..., key=...)`: keeps the current best, replacing it only
on a strictly greater key, so the first maximal element wins. -/
def maxByFirstAux (best : PartitionData) : List PartitionData → PartitionData
  | [] => best
  | p :: rest =>
    maxByFirstAux (if best.ganas_matched < p.ganas_matched then p else best) rest

/-- Function `find_dwipada_gana_partition`: `none` when fewer than 4 non-empty markers
or when no length combination matches the count; otherwise the first fully
valid partition, else the attempted partition with the most valid segments
(first one on ties). -/
def find_dwipada_gana_partition (gana_markers : List GLMarker)
    (aksharalu : List (List Char)) : Option PartitionData :=
  if (gana_markers.filter (fun m => m ≠ GLMarker.emptyMark)).length < 4 then none
  else
    match attemptedPartitions gana_markers aksharalu with
    | [] => none
    | p :: rest =>
      match (attemptedPartitions gana_markers aksharalu).filter
          (fun q => q.is_fully_valid) with
      | v :: _ => some v
      | [] => some (maxByFirstAux p rest)

/-! ## Gana enumerator (`GanaAnalyzer`, `aksharanusarika.py:274`) -/

/-- Table `GANA_DEFINITIONS` flattened in source (insertion) order: the
concatenation of the category dictionaries.  `_flatten_definitions` builds a
dict from these pairs, so a later pair with the same key overwrites an
earlier one (e.g. "UI" ends up as "Ha" from the Surya table, not
"Galamu (Ha)"). -/
def gana_definition_pairs : List (List GLMarker × String) :=
  [([gU], "Guru"), ([gI], "Laghu"),
   ([gI, gI], "Lalamu"), ([gI, gU], "Lagamu (Va)"), ([gU, gI], "Galamu (Ha)"), ([gU, gU], "Gagamu"),
   ([gI, gU, gU], "Ya"), ([gU, gU, gU], "Ma"), ([gU, gU, gI], "Ta"), ([gU, gI, gU], "Ra"),
   ([gI, gU, gI], "Ja"), ([gU, gI, gI], "Bha"), ([gI, gI, gI], "Na"), ([gI, gI, gU], "Sa"),
   ([gI, gI, gI], "Na"), ([gU, gI], "Ha"),
   ([gI, gI, gI, gU], "Naga"), ([gI, gI, gU, gI], "Sala"), ([gI, gI, gI, gI], "Nala"),
   ([gU, gI, gI], "Bha"), ([gU, gI, gU], "Ra"), ([gU, gU, gI], "Ta"),
   ([gU, gI, gI, gI], "Bhala"), ([gU, gI, gI, gU], "Bhagaru"), ([gU, gU, gI, gI], "Tala"),
   ([gU, gU, gI, gU], "Taga"), ([gU, gU, gU, gI], "Malagha"),
   ([gI, gI, gI, gI, gI], "Nalala"), ([gI, gI, gI, gU, gU], "Nagaga"),
   ([gI, gI, gI, gI, gU], "Nava"), ([gI, gI, gU, gU, gI], "Saha"),
   ([gI, gI, gU, gI, gU], "Sava"), ([gI, gI, gU, gU, gU], "Sagaga"),
   ([gI, gI, gI, gU, gI], "Naha"), ([gU, gI, gU, gU], "Raguru"),
   ([gI, gI, gI, gI], "Nala")]

/-- Lookup in `self.flat_ganas`: dict semantics — the *last* write for a key
wins. -/
def flat_gana_lookup (p : List GLMarker) : Option String :=
  (gana_definition_pairs.reverse.find? (fun e => e.1 = p)).map (·.2)

/-- One `gana_info` dict of a combination. -/
structure GanaInfo where
  name : String
  pattern : List GLMarker
deriving DecidableEq

/-- The string join `"".join(syllables[:i])` of marker strings: empty-string
markers vanish. -/
def joinMarkers (l : List GLMarker) : List GLMarker :=
  l.filter (fun m => m ≠ GLMarker.emptyMark)

/-- Recursion `_find_combinations_recursive_memoized`, fuel-indexed (the memo cache is
a pure optimisation and is not modelled; fuel = input length always
suffices since every matched prefix is non-empty). -/
def findCombosF : Nat → List GLMarker → List (List GanaInfo)
  | _, [] => [[]]
  | 0, _ :: _ => []
  | fuel + 1, x :: xs =>
    (List.range (x :: xs).length).flatMap (fun j =>
      let pre := joinMarkers ((x :: xs).take (j + 1))
      match flat_gana_lookup pre with
      | some nm =>
        (findCombosF fuel ((x :: xs).drop (j + 1))).map
          (fun combo => { name := nm, pattern := pre } :: combo)
      | none => [])

/-- Method `GanaAnalyzer(GANA_DEFINITIONS).find_sequential_combinations`. -/
def find_sequential_combinations (syllables : List GLMarker) : List (List GanaInfo) :=
  findCombosF syllables.length syllables

/-! ## Jaccard over weight bigrams (`calculate_gana_jaccard`,
`aksharanusarika.py:334`).  The Python set of bigram strings is modelled as
a deduplicated list of marker pairs. -/

/-- Function `get_bigrams`: the set of adjacent marker pairs of the non-empty
markers. -/
def get_bigrams (markers : List GLMarker) : List (GLMarker × GLMarker) :=
  let pure_markers := markers.filter (fun m => m ≠ GLMarker.emptyMark)
  if pure_markers.length < 2 then []
  else (pure_markers.zip pure_markers.tail).dedup

/-- Function `calculate_gana_jaccard`: returns (similarity, distance); floats are
modelled as rationals.  Union-empty convention: similarity 1. -/
def calculate_gana_jaccard (markers1 markers2 : List GLMarker) : ℚ × ℚ :=
  let bigrams1 := get_bigrams markers1
  let bigrams2 := get_bigrams markers2
  let inter := bigrams1.filter (fun b => b ∈ bigrams2)
  let union := (bigrams1 ++ bigrams2).dedup
  let similarity : ℚ :=
    if 0 < union.length then (inter.length : ℚ) / (union.length : ℚ) else 1
  (similarity, 1 - similarity)

/-! ## aksharanusarika classifier (`categorize_aksharam`,
`aksharanusarika.py:132`) and the tag-set Jaccard of
`compare_telugu_words` (`aksharanusarika.py:724`). -/

def PLUTAMULU : List Char := ['ఐ', 'ఔ']
def SARALAMULU : List Char := ['గ', 'జ', 'డ', 'ద', 'బ']
def PARUSHAMULU : List Char := ['క', 'చ', 'ట', 'త', 'ప']
def STHIRAMULU : List Char :=
  ['ఖ', 'ఘ', 'ఙ', 'ఛ', 'ఝ', 'ఞ', 'ఠ', 'ఢ', 'ణ', 'థ', 'ధ', 'న',
   'ఫ', 'భ', 'మ', 'య', 'ర', 'ఱ', 'ల', 'ళ', 'వ', 'శ', 'ష', 'స', 'హ']
def KA_VARGAMU : List Char := ['క', 'ఖ', 'గ', 'ఘ', 'ఙ']
def CHA_VARGAMU : List Char := ['చ', 'ౘ', 'ఛ', 'జ', 'ౙ', 'ఝ', 'ఞ']
def TA_VARGAMU : List Char := ['ట', 'ఠ', 'డ', 'ఢ', 'ణ']
def THA_VARGAMU : List Char := ['త', 'థ', 'ద', 'ధ', 'న']
def PA_VARGAMU : List Char := ['ప', 'ఫ', 'బ', 'భ', 'మ']
def SPARSHA_MULU : List Char :=
  KA_VARGAMU ++ CHA_VARGAMU ++ TA_VARGAMU ++ THA_VARGAMU ++ PA_VARGAMU
def OOSHMA_MULU : List Char := ['శ', 'స', 'ష', 'హ']
def ANTASTA_MULU : List Char := ['య', 'ర', 'ఱ', 'ల', 'ళ', 'వ']
def KANTHYAMULU : List Char := ['అ', 'ఆ', 'క', 'ఖ', 'గ', 'ఘ', 'ఙ', 'హ']
def TAALAVYAMULU : List Char := ['ఇ', 'ఈ', 'చ', 'ఛ', 'జ', 'ఝ', 'య', 'శ']
def MOORDHANYAMULU : List Char := ['ఋ', 'ౠ', 'ట', 'ఠ', 'డ', 'ఢ', 'ణ', 'ష', 'ఱ', 'ర']
def DANTYAMULU : List Char := ['ఌ', 'ౡ', 'త', 'థ', 'ద', 'ధ', 'ౘ', 'ౙ', 'ల', 'స']
def OOSHTYAMULU : List Char := ['ఉ', 'ఊ', 'ప', 'ఫ', 'బ', 'భ', 'మ']
def ANUNAASIKA_MULU : List Char := ['ఙ', 'ఞ', 'ణ', 'న', 'మ']
def KANTHATAALAVYA_MULU : List Char := ['ఎ', 'ఏ', 'ఐ']
def KANTHOSH_TYAMULU : List Char := ['ఒ', 'ఓ', 'ఔ']
def DANTOSH_TYAMULU : List Char := ['వ']

/-- Function `add_letter_categories`: the categories contributed by one character. -/
def add_letter_categories (ch : Char) : List String :=
  (if ch ∈ PLUTAMULU then ["ప్లుతములు"] else []) ++
  (if ch ∈ SARALAMULU then ["సరళములు"] else []) ++
  (if ch ∈ PARUSHAMULU then ["పరుషములు"] else []) ++
  (if ch ∈ STHIRAMULU then ["స్థిరములు"] else []) ++
  (if ch ∈ KA_VARGAMU then ["క వర్గము"] else []) ++
  (if ch ∈ CHA_VARGAMU then ["చ వర్గము"] else []) ++
  (if ch ∈ TA_VARGAMU then ["ట వర్గము"] else []) ++
  (if ch ∈ THA_VARGAMU then ["త వర్గము"] else []) ++
  (if ch ∈ PA_VARGAMU then ["ప వర్గము"] else []) ++
  (if ch ∈ SPARSHA_MULU then ["స్పర్శములు"] else []) ++
  (if ch ∈ OOSHMA_MULU then ["ఊష్మాలు"] else []) ++
  (if ch ∈ ANTASTA_MULU then ["అంతస్తములు"] else []) ++
  (if ch ∈ KANTHYAMULU then ["కంఠ్యములు"] else []) ++
  (if ch ∈ TAALAVYAMULU then ["తాలవ్యములు"] else []) ++
  (if ch ∈ MOORDHANYAMULU then ["మూర్ధన్యములు"] else []) ++
  (if ch ∈ DANTYAMULU then ["దంత్యములు"] else []) ++
  (if ch ∈ OOSHTYAMULU then ["ఓష్ఠ్యములు"] else []) ++
  (if ch ∈ ANUNAASIKA_MULU then ["అనునాసికములు"] else []) ++
  (if ch ∈ KANTHATAALAVYA_MULU then ["కంఠతాలవ్యములు"] else []) ++
  (if ch ∈ KANTHOSH_TYAMULU then ["కంఠోష్ఠ్యములు"] else []) ++
  (if ch ∈ DANTOSH_TYAMULU then ["దంత్యోష్ఠ్యములు"] else [])

/-- Function `categorize_aksharam` of `aksharanusarika.py` (the extended version):
the dwipada tags, plus the short-vowel tag, plus per-character letter
categories, plus the categories of vowels reached through the
dependent-to-independent mapping, plus the implicit vowel అ.  The result
models the Python tag *set* as a list (membership is the semantics;
duplicates are immaterial and removed by `dedup` wherever counting
happens).  Total core; through the source entry points it is only applied
to non-empty aksharas. -/
def aksharamTagsA (a : List Char) : List String :=
  let base := aksharamTags a
  let base2 := base ++
    (if (("హల్లు" ∈ base ∨ "అచ్చు" ∈ base) ∧ "దీర్ఘ" ∉ base ∧
         "అనుస్వారం" ∉ base ∧ "విసర్గ అక్షరం" ∉ base)
     then ["హ్రస్వాక్షరం"] else [])
  let base3 := base2 ++ (a.flatMap add_letter_categories)
  let found_dependent :=
    dependent_to_independent.any (fun e => e.1 ∈ a)
  let base4 := base3 ++
    (dependent_to_independent.flatMap
      (fun e => if e.1 ∈ a then add_letter_categories e.2 else []))
  base4 ++
    (if a.any (fun c => c ∈ telugu_consonants) ∧ ¬ found_dependent ∧
        ¬ endsWithHalant a
     then add_letter_categories 'అ' else [])

/-- Python `\s` (whitespace class) restricted to the characters that can
appear here; the sanitizer keeps the Telugu block U+0C00..U+0C7F, whitespace,
U+0C01 and U+200B (`analyze_telugu_word`, `aksharanusarika.py:690`). -/
def sanitizeKeep (c : Char) : Bool :=
  (0xC00 ≤ c.toNat ∧ c.toNat ≤ 0xC7F) ∨
  c ∈ [' ', '\t', '\n', '\r', Char.ofNat 0x0B, Char.ofNat 0x0C] ∨
  c.toNat = 0x200B

/-- The `tags` field of `analyze_telugu_word`: the union of the tag sets of
all non-ignorable aksharas of the sanitized word. -/
def analyze_telugu_word_tags (word : List Char) : List String :=
  (((split_aksharalu (word.filter sanitizeKeep)).filter
      (fun ak => ¬ isIgnorableChunk ak)).flatMap aksharamTagsA).dedup

/-- The `jaccardSimilarity` / `jaccardDistance` fields of
`compare_telugu_words`: Jaccard over the two words' tag sets, with the
union-empty case defined as similarity 0. -/
def compare_telugu_words_jaccard (word1 word2 : List Char) : ℚ × ℚ :=
  let tags1 := analyze_telugu_word_tags word1
  let tags2 := analyze_telugu_word_tags word2
  let common := tags1.filter (fun t => t ∈ tags2)
  let allUnion := (tags1 ++ tags2).dedup
  let similarity : ℚ :=
    if 0 < allUnion.length then (common.length : ℚ) / (allUnion.length : ℚ) else 0
  (similarity, 1 - similarity)

/-! ## Prasa checker (`check_prasa`, `dwipada_analyzer.py:845`) -/

/-- Function `get_base_consonant` (`dwipada_analyzer.py:741`): first character if it
is a consonant, else `None` (also `None` for the empty string). -/
def get_base_consonant : List Char → Option Char
  | [] => none
  | c :: _ => if c ∈ telugu_consonants then some c else none

/-- Table `CONSONANT_VARGAS` (`dwipada_analyzer.py:74`). -/
def CONSONANT_VARGAS : List (String × List Char) :=
  [("క-వర్గము (Velar)", ['క', 'ఖ', 'గ', 'ఘ', 'ఙ']),
   ("చ-వర్గము (Palatal)", ['చ', 'ఛ', 'జ', 'ఝ', 'ఞ', 'శ', 'ష', 'స']),
   ("ట-వర్గము (Retroflex)", ['ట', 'ఠ', 'డ', 'ఢ', 'ణ']),
   ("త-వర్గము (Dental)", ['త', 'థ', 'ద', 'ధ', 'న']),
   ("ప-వర్గము (Labial)", ['ప', 'ఫ', 'బ', 'భ', 'మ']),
   ("య-వర్గము (Approximant)", ['య', 'ర', 'ల', 'వ', 'ళ', 'ఱ']),
   ("హ-వర్గము (Aspirate)", ['హ'])]

/-- Function `get_consonant_varga`. -/
def get_consonant_varga (consonant : Char) : Option String :=
  (CONSONANT_VARGAS.find? (fun e => consonant ∈ e.2)).map (·.1)

/-- Function `_extract_vowel_from_aksharam` (`dwipada_analyzer.py:937`): first
dependent vowel found (in table order), else a leading independent vowel,
else the implicit-అ marker string. -/
def extract_vowel_from_aksharam (aksharam : List Char) : String :=
  match aksharam with
  | [] => ""
  | c :: _ =>
    match dependent_vowels.find? (fun dv => dv ∈ aksharam) with
    | some dv => String.mk [dv]
    | none =>
      if c ∈ independent_vowels then String.mk [c] else "అ (implicit)"

/-- The per-line breakdown inside `mismatch_details` (the free-text
`why_mismatch` / `suggestion` strings are omitted). -/
structure PrasaBreakdown where
  aksharam : List Char
  consonant : Option Char
  vowel : String
  consonant_varga : Option String
deriving DecidableEq

/-- The details dict of `check_prasa`: either the short-line error dict
(`{"error": ...}`) or the full result dict. -/
inductive PrasaDetails where
  | tooShort : String → PrasaDetails
  | verdict :
      (line1_second_aksharam : List Char) →
      (line1_consonant : Option Char) →
      (line2_second_aksharam : List Char) →
      (line2_consonant : Option Char) →
      (isMatch : Bool) →
      (mismatch_details : Option (PrasaBreakdown × PrasaBreakdown)) →
      PrasaDetails
deriving DecidableEq

/-- Function `check_prasa`: returns `(is_match, details)`. -/
def check_prasa (line1 line2 : List Char) : Bool × PrasaDetails :=
  let aksharalu1 := split_aksharalu line1
  let aksharalu2 := split_aksharalu line2
  let pure1 := aksharalu1.filter (fun ak => ¬ isIgnorableChunk ak)
  let pure2 := aksharalu2.filter (fun ak => ¬ isIgnorableChunk ak)
  if pure1.length < 2 ∨ pure2.length < 2 then
    (false, PrasaDetails.tooShort "Lines too short - need at least 2 aksharalu each")
  else
    let second_ak1 := pure1.getD 1 []
    let second_ak2 := pure2.getD 1 []
    let consonant1 := get_base_consonant second_ak1
    let consonant2 := get_base_consonant second_ak2
    let isMatch :=
      match consonant1, consonant2 with
      | some c1, some c2 => c1 = c2
      | _, _ => false
    let mismatch :=
      if isMatch then none
      else some
        (⟨second_ak1, consonant1, extract_vowel_from_aksharam second_ak1,
          consonant1.bind get_consonant_varga⟩,
         ⟨second_ak2, consonant2, extract_vowel_from_aksharam second_ak2,
          consonant2.bind get_consonant_varga⟩)
    (isMatch,
     PrasaDetails.verdict second_ak1 consonant1 second_ak2 consonant2 isMatch mismatch)

/-! ## Spec-side definitions used to state the claims -/

/-- A character of the target script block (U+0C00..U+0C7F) or whitespace. -/
def isScriptOrWhitespace (c : Char) : Prop :=
  (0xC00 ≤ c.toNat ∧ c.toNat ≤ 0xC7F) ∨ c = ' ' ∨ c = '\n'

instance : DecidablePred isScriptOrWhitespace := fun c => by
  unfold isScriptOrWhitespace
  infer_instance

/-- The maximal `ganas_matched` value over a list of partitions. -/
def maxMatched (l : List PartitionData) : Nat :=
  (l.map (·.ganas_matched)).foldr max 0

/-- Spec-side selection: the first partition in the list attaining the
maximal count of valid segments. -/
def firstArgmax (l : List PartitionData) : Option PartitionData :=
  l.find? (fun p => p.ganas_matched = maxMatched l)

/-- Spec-side tiling property for the gana enumerator: the combination
exactly tiles the weight sequence and every (pattern, name) pair is drawn
from the flattened pattern table. -/
def IsGanaTiling (combo : List GanaInfo) (syllables : List GLMarker) : Prop :=
  (combo.map (·.pattern)).flatten = syllables ∧
    ∀ g ∈ combo, flat_gana_lookup g.pattern = some g.name

instance : ∀ combo syllables, Decidable (IsGanaTiling combo syllables) := fun _ _ => by
  unfold IsGanaTiling
  infer_instance

/-- All ordered lists of positive naturals summing to `n` (equivalently:
all cut-point combinations of a length-`n` sequence), fuel-indexed. -/
def compositionsF : Nat → Nat → List (List Nat)
  | _, 0 => [[]]
  | 0, _ + 1 => []
  | fuel + 1, n + 1 =>
    (List.range (n + 1)).flatMap (fun k =>
      (compositionsF fuel (n - k)).map (fun lens => (k + 1) :: lens))

/-- Slice a sequence into the segments given by a length list. -/
def sliceBy : List Nat → List GLMarker → List (List GLMarker)
  | [], _ => []
  | k :: ks, s => s.take k :: sliceBy ks (s.drop k)

/-- Brute-force decomposition count: over every cut-point combination,
check each resulting segment against the flattened pattern table. -/
def bruteForceTilingCount (syllables : List GLMarker) : Nat :=
  (compositionsF syllables.length syllables.length).countP
    (fun lens => (sliceBy lens syllables).all (fun seg => (flat_gana_lookup seg).isSome))


/-- An 11-marker line (UII UII UII UI) whose unique length combination is
fully valid, with one single-consonant akshara per marker. -/
def dwipadaExampleMarkers : List GLMarker :=
  [gU, gI, gI, gU, gI, gI, gU, gI, gI, gU, gI]

def dwipadaExampleAksharalu : List (List Char) :=
  [['క'], ['క'], ['క'], ['క'], ['క'], ['క'], ['క'], ['క'], ['క'], ['క'], ['క']]

/-- The partition that `find_dwipada_gana_partition` produces on the
example line. -/
def dwipadaExamplePartition : PartitionData :=
  { ganas :=
      [⟨some "Bha (భ)", [gU, gI, gI], [['క'], ['క'], ['క']], GanaType.indra, true⟩,
       ⟨some "Bha (భ)", [gU, gI, gI], [['క'], ['క'], ['క']], GanaType.indra, true⟩,
       ⟨some "Bha (భ)", [gU, gI, gI], [['క'], ['క'], ['క']], GanaType.indra, true⟩,
       ⟨some "Ha/Gala (హ/గల)", [gU, gI], [['క'], ['క']], GanaType.surya, true⟩],
    total_syllables := 11,
    ganas_matched := 4,
    is_fully_valid := true,
    partition_lengths := [3, 3, 3, 2] }

/-! ## Segmenter lemmas: the segmentation is a partition of the input -/

theorem takeHalantChain_append (l : List Char) :
    (takeHalantChain l).1 ++ (takeHalantChain l).2 = l := by
  induction l using takeHalantChain.induct with
  | case1 => simp [takeHalantChain]
  | case2 => simp [takeHalantChain]
  | case3 c h => simp [takeHalantChain, if_neg h]
  | case4 d rest hd ih =>
    simp only [takeHalantChain, if_pos rfl, if_pos hd]
    simpa using ih
  | case5 d rest hd => simp [takeHalantChain, if_pos rfl, if_neg hd]
  | case6 c d rest h => simp [takeHalantChain, if_neg h]

theorem takeWhileMem_append (s : List Char) (l : List Char) :
    (takeWhileMem s l).1 ++ (takeWhileMem s l).2 = l := by
  induction l with
  | nil => simp [takeWhileMem]
  | cons c rest ih =>
    simp only [takeWhileMem]
    split <;> simp [ih]

theorem nextChunk_append (c : Char) (rest : List Char) :
    (nextChunk c rest).1 ++ (nextChunk c rest).2 = c :: rest := by
  unfold nextChunk
  split
  · simp
  · split
    · simp only [List.cons_append, List.cons.injEq, true_and, List.append_assoc]
      rw [takeWhileMem_append, takeHalantChain_append]
    · match rest with
      | [] => simp
      | d :: rest2 => simp only; split <;> simp

theorem nextChunk_rest_length (c : Char) (rest : List Char) :
    (nextChunk c rest).2.length ≤ rest.length := by
  have h := congrArg List.length (nextChunk_append c rest)
  rw [List.length_append, List.length_cons] at h
  have hne : 1 ≤ (nextChunk c rest).1.length := by
    unfold nextChunk
    split
    · simp
    · split
      · simp
      · match rest with
        | [] => simp
        | d :: rest2 => simp only; split <;> simp
  omega

theorem coarseSplitF_join (fuel : Nat) (w : List Char) (h : w.length ≤ fuel) :
    (coarseSplitF fuel w).flatten = w := by
  induction fuel generalizing w with
  | zero =>
    match w with
    | [] => simp [coarseSplitF]
    | c :: rest => simp at h
  | succ fuel ih =>
    match w with
    | [] => simp [coarseSplitF]
    | c :: rest =>
      simp only [coarseSplitF, List.flatten_cons]
      rw [ih]
      · exact nextChunk_append c rest
      · have := nextChunk_rest_length c rest
        simp at h
        omega

theorem mergeStep_flatten (acc : List (List Char)) (chunk : List Char) :
    (mergeStep acc chunk).reverse.flatten = acc.reverse.flatten ++ chunk := by
  match acc with
  | [] => simp [mergeStep]
  | prev :: accRest =>
    simp only [mergeStep]
    split <;> simp

theorem foldl_mergeStep_flatten (chunks : List (List Char)) (acc : List (List Char)) :
    (chunks.foldl mergeStep acc).reverse.flatten =
      acc.reverse.flatten ++ chunks.flatten := by
  induction chunks generalizing acc with
  | nil => simp
  | cons ch chs ih =>
    simp only [List.foldl_cons, List.flatten_cons]
    rw [ih, mergeStep_flatten, List.append_assoc]

theorem mergePass_flatten (chunks : List (List Char)) :
    (mergePass chunks).flatten = chunks.flatten := by
  unfold mergePass
  simpa using foldl_mergeStep_flatten chunks []

theorem filter_ne_nil_flatten (l : List (List Char)) :
    (l.filter (fun ak => ak ≠ [])).flatten = l.flatten := by
  induction l with
  | nil => simp
  | cons x xs ih =>
    by_cases hx : x = []
    · subst hx; simpa using ih
    · simp only [List.filter_cons, List.flatten_cons]
      rw [if_pos (by simpa using hx)]
      simp only [List.flatten_cons]
      rw [ih]

/-- The segmentation is a partition: concatenating all units reproduces the
input (holds for arbitrary inputs). -/
theorem split_aksharalu_flatten (word : List Char) :
    (split_aksharalu word).flatten = word := by
  unfold split_aksharalu
  by_cases h : coarseSplitF word.length word = []
  · simp only [h, if_pos rfl]
    match word with
    | [] => simp
    | c :: rest => simp [coarseSplitF] at h
  · rw [if_neg h, filter_ne_nil_flatten, mergePass_flatten,
      coarseSplitF_join word.length word (Nat.le_refl _)]

/-! ## Claim theorems -/

/-- C1: for every input containing only Telugu-script code points and
whitespace, concatenating all akshara units returned by `split_aksharalu`
reproduces the input exactly (the coarse pass partitions the input and the
merge pass only concatenates adjacent units). -/
theorem C1_segment_round_trip (w : List Char)
    (_h : ∀ c ∈ w, isScriptOrWhitespace c) :
    (split_aksharalu w).flatten = w :=
  split_aksharalu_flatten w

theorem C1_segment_round_trip_witness :
    (∀ c ∈ (['ర', 'ా', 'మ', 'ు', 'డ', 'ు'] : List Char), isScriptOrWhitespace c) ∧
      (split_aksharalu ['ర', 'ా', 'మ', 'ు', 'డ', 'ు']).flatten
        = ['ర', 'ా', 'మ', 'ు', 'డ', 'ు'] :=
  ⟨by decide, C1_segment_round_trip ['ర', 'ా', 'మ', 'ు', 'డ', 'ు'] (by decide)⟩

/-- C6 counterexample: a virama that is *not* preceded by a consonant is not
captured into the preceding unit; it becomes a standalone lone-virama unit
(here after the completed unit "కా"). -/
theorem C6_counterexample_standalone_virama :
    split_aksharalu ['క', 'ా', '్'] = [['క', 'ా'], ['్']] := by decide

/-- C6 (amended): the empty input yields an empty sequence, and a virama
immediately following a consonant is absorbed into that consonant's unit;
but a virama that the consonant scan does not consume (input start, after a
vowel sign, after an independent vowel) becomes its own standalone
one-character unit — the merge pass never merges a lone-virama chunk into
anything (it only merges [consonant, virama] chunks). -/
theorem C6_amended_virama_units :
    split_aksharalu ([] : List Char) = [] ∧
    split_aksharalu ['క', '్'] = [['క', '్']] ∧
    split_aksharalu ['్'] = [['్']] ∧
    split_aksharalu ['అ', '్'] = [['అ'], ['్']] ∧
    ∀ acc : List (List Char), mergeStep acc [halant] = [halant] :: acc := by
  refine ⟨by decide, by decide, by decide, by decide, ?_⟩
  intro acc
  match acc with
  | [] => rfl
  | prev :: accRest => simp [mergeStep, isPolluChunk]

/-- C7 (code bug): `categorize_aksharam` — the `classify` entry point —
indexes `aksharam[0]` and raises `IndexError` on the empty string instead of
returning a value; the embedding evaluates the operation at the failing
input (`none` models the raised exception). -/
theorem C7_classify_empty_string_raises : categorize_aksharam [] = none := rfl

theorem anusvara_mem_aksharamTags (a : List Char) (h : 'ం' ∈ a) :
    "అనుస్వారం" ∈ aksharamTags a := by
  match a with
  | [] => exact absurd h (List.not_mem_nil _)
  | c :: cs => simp [aksharamTags, h]

theorem visarga_mem_aksharamTags (a : List Char) (h : 'ః' ∈ a) :
    "విసర్గ అక్షరం" ∈ aksharamTags a := by
  match a with
  | [] => exact absurd h (List.not_mem_nil _)
  | c :: cs => simp [aksharamTags, h]

theorem pass1marker_guru_of_anusvara_visarga (a : List Char)
    (hni : ¬ isIgnorableChunk a) (hav : 'ం' ∈ a ∨ 'ః' ∈ a) :
    pass1marker a = GLMarker.guru := by
  unfold pass1marker
  rw [if_neg (by simpa using hni), if_pos]
  refine Or.inr (Or.inr (Or.inl ?_))
  rcases hav with h | h
  · exact Or.inl (anusvara_mem_aksharamTags a h)
  · exact Or.inr (visarga_mem_aksharamTags a h)

theorem pass2_preserves_guru (aks : List (List Char)) (ms : List GLMarker)
    (i : Nat) (h : ms[i]? = some GLMarker.guru) :
    (pass2 aks ms)[i]? = some GLMarker.guru := by
  induction ms generalizing aks i with
  | nil => simp at h
  | cons m ms ih =>
    match aks with
    | [] => simpa [pass2] using h
    | a :: aks =>
      match i with
      | 0 =>
        simp only [List.getElem?_cons_zero, Option.some.injEq] at h
        subst h
        simp only [pass2, List.getElem?_cons_zero, Option.some.injEq]
        cases hn : nextNonIgnTags aks <;> simp
      | i + 1 =>
        simp only [List.getElem?_cons_succ] at h
        simpa only [pass2, List.getElem?_cons_succ] using ih aks i h

/-- C4: every non-ignorable akshara whose text contains an anusvara (ం) or
visarga (ః) marker is assigned Guru by `akshara_ganavibhajana`, regardless
of vowel length; the contextual second pass never demotes it. -/
theorem C4_anusvara_visarga_guru (l : List (List Char)) (ms : List GLMarker)
    (i : Nat) (a : List Char)
    (hms : akshara_ganavibhajana l = some ms)
    (ha : l[i]? = some a)
    (hni : ¬ isIgnorableChunk a)
    (hav : 'ం' ∈ a ∨ 'ః' ∈ a) :
    ms[i]? = some GLMarker.guru := by
  unfold akshara_ganavibhajana at hms
  split at hms
  · exact absurd hms (by simp)
  · have hms2 : ms = pass2 l (l.map pass1marker) := by
      simpa using hms.symm
    subst hms2
    apply pass2_preserves_guru
    rw [List.getElem?_map, ha]
    exact congrArg some (pass1marker_guru_of_anusvara_visarga a hni hav)

theorem C4_anusvara_visarga_guru_witness :
    akshara_ganavibhajana [['క', 'ం']] = some [GLMarker.guru] ∧
      ¬ isIgnorableChunk ['క', 'ం'] ∧
      ([GLMarker.guru] : List GLMarker)[0]? = some GLMarker.guru :=
  ⟨by decide, by decide,
    C4_anusvara_visarga_guru [['క', 'ం']] [GLMarker.guru] 0 ['క', 'ం']
      (by decide) rfl (by decide) (Or.inl (by decide))⟩

/-- C8: any pair of lines in which at least one line segments to fewer than
two non-ignorable aksharas yields the distinguished insufficient-input
result (`(False, {"error": ...})`), which is a different constructor from
any match/mismatch verdict. -/
theorem C8_prasa_insufficient_input (line1 line2 : List Char)
    (h : ((split_aksharalu line1).filter (fun ak => ¬ isIgnorableChunk ak)).length < 2 ∨
         ((split_aksharalu line2).filter (fun ak => ¬ isIgnorableChunk ak)).length < 2) :
    check_prasa line1 line2 =
      (false, PrasaDetails.tooShort "Lines too short - need at least 2 aksharalu each") ∧
    ∀ (s : String) a1 c1 a2 c2 m md,
      PrasaDetails.tooShort s ≠ PrasaDetails.verdict a1 c1 a2 c2 m md := by
  constructor
  · simp only [check_prasa]
    rw [if_pos h]
  · intro s a1 c1 a2 c2 m md hcontra
    cases hcontra

theorem C8_prasa_insufficient_input_witness :
    check_prasa ['క'] ['ర'] =
      (false, PrasaDetails.tooShort "Lines too short - need at least 2 aksharalu each") :=
  (C8_prasa_insufficient_input ['క'] ['ర'] (by decide)).1

/-- C10: if both lines have at least two non-ignorable aksharas but either
line's second akshara does not begin with a Telugu consonant, `check_prasa`
returns a negative verdict (`match = False`) with that consonant recorded as
absent (`None`) — not the insufficient-input result — even when the two
second aksharas are identical. -/
theorem C10_vowel_initial_second_akshara (line1 line2 : List Char)
    (a1 a2 : List Char)
    (h1 : ((split_aksharalu line1).filter (fun ak => ¬ isIgnorableChunk ak))[1]? = some a1)
    (h2 : ((split_aksharalu line2).filter (fun ak => ¬ isIgnorableChunk ak))[1]? = some a2)
    (hnc : get_base_consonant a1 = none ∨ get_base_consonant a2 = none) :
    check_prasa line1 line2 =
      (false,
        PrasaDetails.verdict a1 (get_base_consonant a1) a2 (get_base_consonant a2) false
          (some
            (⟨a1, get_base_consonant a1, extract_vowel_from_aksharam a1,
              (get_base_consonant a1).bind get_consonant_varga⟩,
             ⟨a2, get_base_consonant a2, extract_vowel_from_aksharam a2,
              (get_base_consonant a2).bind get_consonant_varga⟩))) := by
  have hl1 : 1 < ((split_aksharalu line1).filter (fun ak => ¬ isIgnorableChunk ak)).length := by
    by_contra hlt
    rw [List.getElem?_eq_none (by omega)] at h1
    cases h1
  have hl2 : 1 < ((split_aksharalu line2).filter (fun ak => ¬ isIgnorableChunk ak)).length := by
    by_contra hlt
    rw [List.getElem?_eq_none (by omega)] at h2
    cases h2
  have e1 : ((split_aksharalu line1).filter (fun ak => ¬ isIgnorableChunk ak)).getD 1 [] = a1 := by
    simp only [List.getD, List.get?_eq_getElem?]
    rw [h1]
    rfl
  have e2 : ((split_aksharalu line2).filter (fun ak => ¬ isIgnorableChunk ak)).getD 1 [] = a2 := by
    simp only [List.getD, List.get?_eq_getElem?]
    rw [h2]
    rfl
  simp only [check_prasa]
  rw [if_neg (by omega), e1, e2]
  have hm :
      (match get_base_consonant a1, get_base_consonant a2 with
        | some c1, some c2 => decide (c1 = c2)
        | _, _ => false) = false := by
    rcases hnc with hc | hc
    · rw [hc]
    · rw [hc]
      cases get_base_consonant a1 <;> rfl
  rw [hm]
  simp

theorem C10_vowel_initial_second_akshara_witness :
    check_prasa ['క', 'అ'] ['క', 'అ'] =
      (false,
        PrasaDetails.verdict ['అ'] (get_base_consonant ['అ']) ['అ'] (get_base_consonant ['అ'])
          false
          (some
            (⟨['అ'], get_base_consonant ['అ'], extract_vowel_from_aksharam ['అ'],
              (get_base_consonant ['అ']).bind get_consonant_varga⟩,
             ⟨['అ'], get_base_consonant ['అ'], extract_vowel_from_aksharam ['అ'],
              (get_base_consonant ['అ']).bind get_consonant_varga⟩))) :=
  C10_vowel_initial_second_akshara ['క', 'అ'] ['క', 'అ'] ['అ'] ['అ']
    (by decide) (by decide) (Or.inl (by decide))

/-- C9: the two Jaccard variants use opposite empty-union conventions —
`calculate_gana_jaccard` yields (similarity, distance) = (1, 0) whenever the
union of the two bigram sets is empty (in particular when each weight
sequence has fewer than 2 non-empty markers), while the tag-set Jaccard of
`compare_telugu_words` yields (0, 1) when the union of the two tag sets is
empty. -/
theorem C9_jaccard_empty_union_conventions :
    (∀ markers1 markers2 : List GLMarker,
      ((get_bigrams markers1 ++ get_bigrams markers2).dedup = [] →
        calculate_gana_jaccard markers1 markers2 = (1, 0)) ∧
      ((markers1.filter (fun m => m ≠ GLMarker.emptyMark)).length < 2 →
       (markers2.filter (fun m => m ≠ GLMarker.emptyMark)).length < 2 →
        calculate_gana_jaccard markers1 markers2 = (1, 0))) ∧
    (∀ word1 word2 : List Char,
      (analyze_telugu_word_tags word1 ++ analyze_telugu_word_tags word2).dedup = [] →
        compare_telugu_words_jaccard word1 word2 = (0, 1)) := by
  refine ⟨fun markers1 markers2 => ⟨fun hu => ?_, fun hp1 hp2 => ?_⟩,
    fun word1 word2 hu => ?_⟩
  · simp only [calculate_gana_jaccard]
    rw [hu]
    norm_num
  · have b1 : get_bigrams markers1 = [] := by
      simp only [get_bigrams]
      rw [if_pos hp1]
    have b2 : get_bigrams markers2 = [] := by
      simp only [get_bigrams]
      rw [if_pos hp2]
    simp only [calculate_gana_jaccard]
    rw [b1, b2]
    norm_num
  · simp only [compare_telugu_words_jaccard]
    rw [hu]
    norm_num

theorem C9_jaccard_empty_union_conventions_witness :
    calculate_gana_jaccard [GLMarker.guru] [] = (1, 0) ∧
      compare_telugu_words_jaccard [] [] = (0, 1) :=
  ⟨(C9_jaccard_empty_union_conventions.1 [GLMarker.guru] []).2 (by decide) (by decide),
   C9_jaccard_empty_union_conventions.2 [] [] (by decide)⟩

/-! ### C2/C3 support lemmas -/

theorem ganaLengthCombos_sum_bounds :
    ∀ c ∈ ganaLengthCombos, 11 ≤ c.1 + c.2.1 + c.2.2.1 + c.2.2.2 ∧
      c.1 + c.2.1 + c.2.2.1 + c.2.2.2 ≤ 15 := by decide

theorem ganaLengthCombos_filter_ne_nil (n : Nat) :
    (ganaLengthCombos.filter
        (fun c => c.1 + c.2.1 + c.2.2.1 + c.2.2.2 = n)) ≠ [] ↔
      11 ≤ n ∧ n ≤ 15 := by
  constructor
  · intro h
    obtain ⟨c, hc⟩ := List.exists_mem_of_ne_nil _ h
    rw [List.mem_filter] at hc
    have hb := ganaLengthCombos_sum_bounds c hc.1
    have he : c.1 + c.2.1 + c.2.2.1 + c.2.2.2 = n := by simpa using hc.2
    omega
  · rintro ⟨h1, h2⟩
    interval_cases n <;> decide

theorem attemptedPartitions_ne_nil_iff (mk : List GLMarker) (aks : List (List Char)) :
    attemptedPartitions mk aks ≠ [] ↔
      11 ≤ (mk.filter (fun m => m ≠ GLMarker.emptyMark)).length ∧
        (mk.filter (fun m => m ≠ GLMarker.emptyMark)).length ≤ 15 := by
  rw [← ganaLengthCombos_filter_ne_nil]
  unfold attemptedPartitions
  simp

theorem maxByFirstAux_mem (l : List PartitionData) (b : PartitionData) :
    maxByFirstAux b l ∈ b :: l := by
  induction l generalizing b with
  | nil => simp [maxByFirstAux]
  | cons p rest ih =>
    simp only [maxByFirstAux]
    by_cases hc : b.ganas_matched < p.ganas_matched
    · rw [if_pos hc]
      exact List.mem_cons_of_mem b (ih p)
    · rw [if_neg hc]
      rcases List.mem_cons.mp (ih b) with h1 | h1
      · simp [h1]
      · simp [h1]

theorem find_some_mem_attempted (mk : List GLMarker) (aks : List (List Char))
    (p : PartitionData) (h : find_dwipada_gana_partition mk aks = some p) :
    p ∈ attemptedPartitions mk aks := by
  unfold find_dwipada_gana_partition at h
  by_cases hlt : (mk.filter (fun m => m ≠ GLMarker.emptyMark)).length < 4
  · rw [if_pos hlt] at h
    cases h
  · rw [if_neg hlt] at h
    cases hA : attemptedPartitions mk aks with
    | nil => rw [hA] at h; cases h
    | cons p0 rest =>
      rw [hA] at h
      cases hF : (p0 :: rest).filter (fun q => q.is_fully_valid) with
      | nil =>
        rw [hF] at h
        simp only [Option.some.injEq] at h
        rw [← h]
        exact maxByFirstAux_mem rest p0
      | cons v vs =>
        rw [hF] at h
        simp only [Option.some.injEq] at h
        subst h
        exact List.mem_of_mem_filter (hF ▸ List.mem_cons_self v vs)

theorem mem_attempted_unpack (mk : List GLMarker) (aks : List (List Char))
    (p : PartitionData) (h : p ∈ attemptedPartitions mk aks) :
    ∃ c ∈ ganaLengthCombos,
      c.1 + c.2.1 + c.2.2.1 + c.2.2.2 =
        (mk.filter (fun m => m ≠ GLMarker.emptyMark)).length ∧
      p = buildPartition (mk.filter (fun m => m ≠ GLMarker.emptyMark))
            (aks.filter (fun ak => ¬ isIgnorableChunk ak)) c.1 c.2.1 c.2.2.1 c.2.2.2 := by
  unfold attemptedPartitions at h
  rw [List.mem_map] at h
  obtain ⟨c, hcmem, hceq⟩ := h
  rw [List.mem_filter] at hcmem
  exact ⟨c, hcmem.1, by simpa using hcmem.2, hceq.symm⟩

theorem buildPartition_matched_le (ps : List GLMarker) (aks : List (List Char))
    (i1 i2 i3 s : Nat) :
    (buildPartition ps aks i1 i2 i3 s).ganas_matched ≤ 4 := by
  unfold buildPartition
  simp only
  have hb : ∀ b : Bool, cond b 1 0 ≤ 1 := by intro b; cases b <;> simp
  have h1 := hb (decide ((identify_gana (ps.take i1)).2 = GanaType.indra))
  have h2 := hb (decide ((identify_gana ((ps.drop i1).take i2)).2 = GanaType.indra))
  have h3 := hb (decide ((identify_gana (((ps.drop i1).drop i2).take i3)).2 = GanaType.indra))
  have h4 := hb (decide ((identify_gana ((((ps.drop i1).drop i2).drop i3).take s)).2 = GanaType.surya))
  omega

theorem buildPartition_valid_eq_decide (ps : List GLMarker) (aks : List (List Char))
    (i1 i2 i3 s : Nat) :
    (buildPartition ps aks i1 i2 i3 s).is_fully_valid =
      decide ((buildPartition ps aks i1 i2 i3 s).ganas_matched = 4) := rfl

theorem flatten4_take_drop {α : Type} (xs : List α) (a b c d : Nat)
    (h : a + b + c + d = xs.length) :
    ([xs.take a, (xs.drop a).take b, ((xs.drop a).drop b).take c,
      (((xs.drop a).drop b).drop c).take d] : List (List α)).flatten = xs := by
  have h3 : (((xs.drop a).drop b).drop c).take d = ((xs.drop a).drop b).drop c := by
    apply List.take_of_length_le
    simp only [List.length_drop]
    omega
  simp only [List.flatten_cons, List.flatten_nil, List.append_nil]
  rw [h3, List.take_append_drop, List.take_append_drop, List.take_append_drop]

theorem maxMatched_cons (b : PartitionData) (l : List PartitionData) :
    maxMatched (b :: l) = max b.ganas_matched (maxMatched l) := rfl

theorem le_maxMatched_of_mem {q : PartitionData} {l : List PartitionData}
    (h : q ∈ l) : q.ganas_matched ≤ maxMatched l := by
  induction l with
  | nil => cases h
  | cons p rest ih =>
    rw [maxMatched_cons]
    rcases List.mem_cons.mp h with h1 | h1
    · rw [h1]; exact Nat.le_max_left _ _
    · exact Nat.le_trans (ih h1) (Nat.le_max_right _ _)

theorem maxMatched_cons_cons (b x : PartitionData) (xs : List PartitionData) :
    maxMatched (b :: x :: xs) =
      maxMatched ((if b.ganas_matched < x.ganas_matched then x else b) :: xs) := by
  rw [maxMatched_cons, maxMatched_cons, maxMatched_cons]
  by_cases hc : b.ganas_matched < x.ganas_matched
  · rw [if_pos hc]
    rw [← Nat.max_assoc]
    rw [Nat.max_eq_right (Nat.le_of_lt hc)]
  · rw [if_neg hc]
    rw [← Nat.max_assoc]
    rw [Nat.max_eq_left (Nat.le_of_not_lt hc)]

theorem maxByFirstAux_find? (l : List PartitionData) : ∀ b : PartitionData,
    (b :: l).find?
        (fun p => p.ganas_matched = maxMatched (b :: l)) = some (maxByFirstAux b l) := by
  induction l with
  | nil =>
    intro b
    rw [List.find?_cons_of_pos _ (by simp [maxMatched])]
    rfl
  | cons x xs ih =>
    intro b
    have hMM := maxMatched_cons_cons b x xs
    have ihb := ih (if b.ganas_matched < x.ganas_matched then x else b)
    rw [← hMM] at ihb
    have hRHS : maxByFirstAux b (x :: xs) =
        maxByFirstAux (if b.ganas_matched < x.ganas_matched then x else b) xs := rfl
    rw [hRHS]
    have hMb : b.ganas_matched ≤ maxMatched (b :: x :: xs) :=
      le_maxMatched_of_mem (by simp)
    have hMx : x.ganas_matched ≤ maxMatched (b :: x :: xs) :=
      le_maxMatched_of_mem (by simp)
    by_cases hb : b.ganas_matched = maxMatched (b :: x :: xs)
    · -- the head already attains the maximum; nothing in the tail replaces it
      have hc : ¬ b.ganas_matched < x.ganas_matched := by omega
      rw [if_neg hc] at ihb ⊢
      rw [List.find?_cons_of_pos _ (by simp [hb])] at ihb ⊢
      exact ihb
    · rw [List.find?_cons_of_neg _ (by simp [hb])]
      by_cases hc : b.ganas_matched < x.ganas_matched
      · rw [if_pos hc] at ihb ⊢
        exact ihb
      · rw [if_neg hc] at ihb ⊢
        have hx : ¬ x.ganas_matched = maxMatched (b :: x :: xs) := by omega
        rw [List.find?_cons_of_neg _ (by simp [hb])] at ihb
        rw [List.find?_cons_of_neg _ (by simp [hx])]
        exact ihb

theorem cond4_eq_four {b1 b2 b3 b4 : Bool}
    (h : cond b1 1 0 + cond b2 1 0 + cond b3 1 0 + cond b4 1 0 = 4) :
    b1 = true ∧ b2 = true ∧ b3 = true ∧ b4 = true := by
  cases b1 <;> cases b2 <;> cases b3 <;> cases b4 <;> simp_all

theorem buildPartition_fully_valid_types (ps : List GLMarker)
    (aks : List (List Char)) (i1 i2 i3 s : Nat)
    (h : (buildPartition ps aks i1 i2 i3 s).is_fully_valid = true) :
    (identify_gana (ps.take i1)).2 = GanaType.indra ∧
    (identify_gana ((ps.drop i1).take i2)).2 = GanaType.indra ∧
    (identify_gana (((ps.drop i1).drop i2).take i3)).2 = GanaType.indra ∧
    (identify_gana ((((ps.drop i1).drop i2).drop i3).take s)).2 = GanaType.surya := by
  have h4 :
      cond (decide ((identify_gana (ps.take i1)).2 = GanaType.indra)) 1 0 +
      cond (decide ((identify_gana ((ps.drop i1).take i2)).2 = GanaType.indra)) 1 0 +
      cond (decide ((identify_gana (((ps.drop i1).drop i2).take i3)).2 = GanaType.indra)) 1 0 +
      cond (decide ((identify_gana ((((ps.drop i1).drop i2).drop i3).take s)).2 = GanaType.surya)) 1 0 = 4 := by
    have h' : (buildPartition ps aks i1 i2 i3 s).is_fully_valid =
        decide ((buildPartition ps aks i1 i2 i3 s).ganas_matched = 4) := rfl
    rw [h', decide_eq_true_eq] at h
    exact h
  obtain ⟨e1, e2, e3, e4⟩ := cond4_eq_four h4
  exact ⟨of_decide_eq_true e1, of_decide_eq_true e2,
    of_decide_eq_true e3, of_decide_eq_true e4⟩

/-- C3: for every partition returned by `find_dwipada_gana_partition` that
is fully valid, the concatenation of its four segment patterns equals the
full non-empty weight-marker string of the line, and the identified family
labels of the four segments are exactly [Indra, Indra, Indra, Surya]. -/
theorem C3_partition_invariant (mk : List GLMarker) (aks : List (List Char))
    (p : PartitionData)
    (hfind : find_dwipada_gana_partition mk aks = some p)
    (hvalid : p.is_fully_valid = true) :
    (p.ganas.map (fun g => g.pattern)).flatten =
      mk.filter (fun m => m ≠ GLMarker.emptyMark) ∧
    p.ganas.map (fun g => (identify_gana g.pattern).2) =
      [GanaType.indra, GanaType.indra, GanaType.indra, GanaType.surya] := by
  obtain ⟨c, hcm, hsum, hp⟩ :=
    mem_attempted_unpack mk aks p (find_some_mem_attempted mk aks p hfind)
  subst hp
  constructor
  · have hpat :
        ((buildPartition (mk.filter (fun m => m ≠ GLMarker.emptyMark))
            (aks.filter (fun ak => ¬ isIgnorableChunk ak))
            c.1 c.2.1 c.2.2.1 c.2.2.2).ganas.map (fun g => g.pattern)) =
          [(mk.filter (fun m => m ≠ GLMarker.emptyMark)).take c.1,
           ((mk.filter (fun m => m ≠ GLMarker.emptyMark)).drop c.1).take c.2.1,
           (((mk.filter (fun m => m ≠ GLMarker.emptyMark)).drop c.1).drop c.2.1).take c.2.2.1,
           ((((mk.filter (fun m => m ≠ GLMarker.emptyMark)).drop c.1).drop c.2.1).drop c.2.2.1).take c.2.2.2] := rfl
    rw [hpat]
    exact flatten4_take_drop _ c.1 c.2.1 c.2.2.1 c.2.2.2 hsum
  · obtain ⟨t1, t2, t3, t4⟩ :=
      buildPartition_fully_valid_types _ _ c.1 c.2.1 c.2.2.1 c.2.2.2 hvalid
    have hgs :
        ((buildPartition (mk.filter (fun m => m ≠ GLMarker.emptyMark))
            (aks.filter (fun ak => ¬ isIgnorableChunk ak))
            c.1 c.2.1 c.2.2.1 c.2.2.2).ganas.map (fun g => (identify_gana g.pattern).2)) =
          [(identify_gana ((mk.filter (fun m => m ≠ GLMarker.emptyMark)).take c.1)).2,
           (identify_gana (((mk.filter (fun m => m ≠ GLMarker.emptyMark)).drop c.1).take c.2.1)).2,
           (identify_gana ((((mk.filter (fun m => m ≠ GLMarker.emptyMark)).drop c.1).drop c.2.1).take c.2.2.1)).2,
           (identify_gana (((((mk.filter (fun m => m ≠ GLMarker.emptyMark)).drop c.1).drop c.2.1).drop c.2.2.1).take c.2.2.2)).2] := rfl
    rw [hgs, t1, t2, t3, t4]

theorem maxMatched_le {l : List PartitionData}
    (h : ∀ q ∈ l, q.ganas_matched ≤ 4) : maxMatched l ≤ 4 := by
  induction l with
  | nil => simp [maxMatched]
  | cons p rest ih =>
    rw [maxMatched_cons]
    exact Nat.max_le.mpr ⟨h p (by simp), ih (fun q hq => h q (List.mem_cons_of_mem _ hq))⟩

theorem find?_four_of_filter (l : List PartitionData)
    (hrel : ∀ q ∈ l, q.is_fully_valid = decide (q.ganas_matched = 4))
    (v : PartitionData) (vs : List PartitionData)
    (hF : l.filter (fun q => q.is_fully_valid) = v :: vs) :
    l.find? (fun p => p.ganas_matched = 4) = some v := by
  induction l generalizing vs with
  | nil => simp at hF
  | cons p rest ih =>
    rw [List.filter_cons] at hF
    by_cases hv : p.is_fully_valid = true
    · rw [if_pos hv] at hF
      have hp4 : p.ganas_matched = 4 := by
        have := hrel p (by simp)
        rw [hv] at this
        exact of_decide_eq_true this.symm
      rw [List.find?_cons_of_pos _ (by simp [hp4])]
      exact congrArg some (List.cons.inj hF).1
    · rw [if_neg (by simpa using hv)] at hF
      have hp4 : ¬ p.ganas_matched = 4 := by
        intro hcon
        apply hv
        rw [hrel p (by simp), hcon]
        rfl
      rw [List.find?_cons_of_neg _ (by simp [hp4])]
      exact ih (fun q hq => hrel q (List.mem_cons_of_mem _ hq)) vs hF

/-- C2 (amended): `find_dwipada_gana_partition` returns `none` exactly when
the count of non-empty weight markers lies outside 11..15 (in particular
whenever it is below 4, but also for counts 4..10 and above 15, since none
of the 16 length combinations can sum to such a count); for every count in
11..15 it returns the first attempted partition (in the fixed nested-loop
order) with the greatest number of individually valid segments — which is a
fully valid partition whenever one of the 16 combinations satisfies the
template. -/
theorem C2_partition_none_and_best (mk : List GLMarker) (aks : List (List Char)) :
    (find_dwipada_gana_partition mk aks = none ↔
      ((mk.filter (fun m => m ≠ GLMarker.emptyMark)).length < 11 ∨
        15 < (mk.filter (fun m => m ≠ GLMarker.emptyMark)).length)) ∧
    (11 ≤ (mk.filter (fun m => m ≠ GLMarker.emptyMark)).length →
      (mk.filter (fun m => m ≠ GLMarker.emptyMark)).length ≤ 15 →
      find_dwipada_gana_partition mk aks =
        firstArgmax (attemptedPartitions mk aks)) := by
  have hAiff := attemptedPartitions_ne_nil_iff mk aks
  constructor
  · constructor
    · intro hnone
      by_contra hcon
      push_neg at hcon
      have hb : 11 ≤ (mk.filter (fun m => m ≠ GLMarker.emptyMark)).length ∧
          (mk.filter (fun m => m ≠ GLMarker.emptyMark)).length ≤ 15 := by omega
      have hA := hAiff.mpr hb
      cases hAe : attemptedPartitions mk aks with
      | nil => exact hA hAe
      | cons p0 rest =>
        unfold find_dwipada_gana_partition at hnone
        rw [if_neg (by omega), hAe] at hnone
        cases hF : (p0 :: rest).filter (fun q => q.is_fully_valid) with
        | nil => rw [hF] at hnone; cases hnone
        | cons v vs => rw [hF] at hnone; cases hnone
    · intro hb
      unfold find_dwipada_gana_partition
      by_cases hlt : (mk.filter (fun m => m ≠ GLMarker.emptyMark)).length < 4
      · rw [if_pos hlt]
      · rw [if_neg hlt]
        have hA : attemptedPartitions mk aks = [] := by
          by_contra hne
          have := hAiff.mp hne
          omega
        rw [hA]
  · intro h1 h2
    have hA : attemptedPartitions mk aks ≠ [] := hAiff.mpr ⟨h1, h2⟩
    cases hAe : attemptedPartitions mk aks with
    | nil => exact absurd hAe hA
    | cons p0 rest =>
      have hrel : ∀ q ∈ p0 :: rest, q.is_fully_valid = decide (q.ganas_matched = 4) := by
        intro q hq
        obtain ⟨c, _, _, hq'⟩ := mem_attempted_unpack mk aks q (hAe ▸ hq)
        rw [hq']
        exact buildPartition_valid_eq_decide _ _ _ _ _ _
      have hle : ∀ q ∈ p0 :: rest, q.ganas_matched ≤ 4 := by
        intro q hq
        obtain ⟨c, _, _, hq'⟩ := mem_attempted_unpack mk aks q (hAe ▸ hq)
        rw [hq']
        exact buildPartition_matched_le _ _ _ _ _ _
      unfold find_dwipada_gana_partition
      rw [if_neg (by omega), hAe]
      cases hF : (p0 :: rest).filter (fun q => q.is_fully_valid) with
      | nil =>
        exact (maxByFirstAux_find? rest p0).symm
      | cons v vs =>
        have hvmem : v ∈ p0 :: rest :=
          List.mem_of_mem_filter (hF ▸ List.mem_cons_self v vs)
        have hvval : v.is_fully_valid = true :=
          List.of_mem_filter (hF ▸ List.mem_cons_self v vs)
        have hv4 : v.ganas_matched = 4 := by
          have := hrel v hvmem
          rw [hvval] at this
          exact of_decide_eq_true this.symm
        have hM : maxMatched (p0 :: rest) = 4 :=
          Nat.le_antisymm (maxMatched_le hle) (hv4 ▸ le_maxMatched_of_mem hvmem)
        unfold firstArgmax
        rw [hM]
        exact (find?_four_of_filter (p0 :: rest) hrel v vs hF).symm

/-- C2 counterexample: a line with exactly 4 non-empty weight markers (so
"at least 4") for which `find_dwipada_gana_partition` nevertheless returns
`none` (no combination of gana lengths sums to 4; the minimum is 11). -/
theorem C2_counterexample_four_markers :
    find_dwipada_gana_partition [gU, gU, gU, gU] [['క'], ['క'], ['క'], ['క']] = none ∧
      ([gU, gU, gU, gU].filter (fun m => m ≠ GLMarker.emptyMark)).length = 4 := by
  decide

theorem C2_partition_none_and_best_witness :
    find_dwipada_gana_partition [gU, gI, gI] [['క'], ['క'], ['క']] = none ∧
      find_dwipada_gana_partition dwipadaExampleMarkers dwipadaExampleAksharalu =
        firstArgmax (attemptedPartitions dwipadaExampleMarkers dwipadaExampleAksharalu) :=
  ⟨(C2_partition_none_and_best [gU, gI, gI] [['క'], ['క'], ['క']]).1.mpr
      (Or.inl (by decide)),
   (C2_partition_none_and_best dwipadaExampleMarkers dwipadaExampleAksharalu).2
      (by decide) (by decide)⟩

theorem C3_partition_invariant_witness :
    (dwipadaExamplePartition.ganas.map (fun g => g.pattern)).flatten =
      dwipadaExampleMarkers.filter (fun m => m ≠ GLMarker.emptyMark) ∧
    dwipadaExamplePartition.ganas.map (fun g => (identify_gana g.pattern).2) =
      [GanaType.indra, GanaType.indra, GanaType.indra, GanaType.surya] :=
  C3_partition_invariant dwipadaExampleMarkers dwipadaExampleAksharalu
    dwipadaExamplePartition (by decide) (by decide)

/-! ### C5 support lemmas -/

theorem flat_gana_lookup_nil : flat_gana_lookup [] = none := by decide

theorem joinMarkers_eq_self (l : List GLMarker) (h : GLMarker.emptyMark ∉ l) :
    joinMarkers l = l := by
  unfold joinMarkers
  apply List.filter_eq_self.mpr
  intro a ha
  simp only [decide_eq_true_eq]
  intro hcon
  exact h (hcon ▸ ha)

theorem tiling_nil_iff (combo : List GanaInfo) :
    IsGanaTiling combo [] ↔ combo = [] := by
  constructor
  · rintro ⟨hflat, hlk⟩
    match combo with
    | [] => rfl
    | g :: rest =>
      simp only [List.map_cons, List.flatten_cons, List.append_eq_nil] at hflat
      have hl := hlk g (by simp)
      rw [hflat.1, flat_gana_lookup_nil] at hl
      cases hl
  · rintro rfl
    exact ⟨rfl, by simp⟩

theorem findCombosF_mem_iff (fuel : Nat) :
    ∀ (syls : List GLMarker), syls.length ≤ fuel →
      GLMarker.emptyMark ∉ syls →
      ∀ combo : List GanaInfo,
        combo ∈ findCombosF fuel syls ↔ IsGanaTiling combo syls := by
  induction fuel with
  | zero =>
    intro syls hlen hne combo
    match syls with
    | [] =>
      rw [tiling_nil_iff]
      simp [findCombosF]
    | x :: xs => simp at hlen
  | succ fuel ih =>
    intro syls hlen hne combo
    match syls with
    | [] =>
      rw [tiling_nil_iff]
      simp [findCombosF]
    | x :: xs =>
      constructor
      · intro hmem
        simp only [findCombosF] at hmem
        rw [List.mem_flatMap] at hmem
        obtain ⟨j, hj, hcombo⟩ := hmem
        rw [List.mem_range] at hj
        cases hlk : flat_gana_lookup (joinMarkers ((x :: xs).take (j + 1))) with
        | none => rw [hlk] at hcombo; cases hcombo
        | some nm =>
          rw [hlk] at hcombo
          rw [List.mem_map] at hcombo
          obtain ⟨combo2, hc2, hceq⟩ := hcombo
          have hjm : joinMarkers ((x :: xs).take (j + 1)) = (x :: xs).take (j + 1) :=
            joinMarkers_eq_self _ (fun hc => hne (List.take_subset _ _ hc))
          have hdlen : ((x :: xs).drop (j + 1)).length ≤ fuel := by
            rw [List.length_drop]
            simp only [List.length_cons] at hlen ⊢
            omega
          have hdne : GLMarker.emptyMark ∉ (x :: xs).drop (j + 1) :=
            fun hc => hne (List.drop_subset _ _ hc)
          have htile := (ih _ hdlen hdne combo2).mp hc2
          rw [← hceq]
          constructor
          · simp only [List.map_cons, List.flatten_cons]
            rw [hjm, htile.1]
            exact List.take_append_drop _ _
          · intro g hg
            rcases List.mem_cons.mp hg with h1 | h1
            · rw [h1]
              exact hlk
            · exact htile.2 g h1
      · intro htile
        obtain ⟨hflat, hlkAll⟩ := htile
        match combo with
        | [] => simp at hflat
        | g :: rest =>
          obtain ⟨gname, gpat⟩ := g
          have hglk := hlkAll ⟨gname, gpat⟩ (by simp)
          simp only at hglk
          have hgne : gpat ≠ [] := by
            intro hc
            rw [hc, flat_gana_lookup_nil] at hglk
            cases hglk
          simp only [List.map_cons, List.flatten_cons] at hflat
          have hlenle : gpat.length ≤ (x :: xs).length := by
            rw [← hflat]
            simp
          have htake : (x :: xs).take gpat.length = gpat := by
            rw [← hflat]
            exact List.take_left gpat _
          have hdrop : (x :: xs).drop gpat.length =
              (rest.map (fun g => g.pattern)).flatten := by
            rw [← hflat]
            exact List.drop_left gpat _
          obtain ⟨k, hk⟩ : ∃ k, gpat.length = k + 1 := by
            have := List.length_pos.mpr hgne
            exact ⟨gpat.length - 1, by omega⟩
          simp only [findCombosF]
          rw [List.mem_flatMap]
          refine ⟨k, by rw [List.mem_range]; simp only [List.length_cons] at hlenle ⊢; omega, ?_⟩
          have hgne2 : GLMarker.emptyMark ∉ gpat := by
            rw [← htake]
            exact fun hc => hne (List.take_subset _ _ hc)
          have hpre : joinMarkers ((x :: xs).take (k + 1)) = gpat := by
            rw [← hk, htake]
            exact joinMarkers_eq_self _ hgne2
          rw [hpre, hglk, List.mem_map]
          refine ⟨rest, ?_, rfl⟩
          apply (ih _ ?_ ?_ rest).mpr
          · constructor
            · rw [← hk, hdrop]
            · intro g2 hg2
              exact hlkAll g2 (List.mem_cons_of_mem _ hg2)
          · rw [List.length_drop]
            simp only [List.length_cons] at hlen ⊢
            omega
          · exact fun hc => hne (List.drop_subset _ _ hc)

theorem compositionsF_fuel_irrel (f1 : Nat) : ∀ (f2 n : Nat), n ≤ f1 → n ≤ f2 →
    compositionsF f1 n = compositionsF f2 n := by
  induction f1 with
  | zero =>
    intro f2 n h1 h2
    have hn : n = 0 := Nat.le_zero.mp h1
    subst hn
    cases f2 <;> rfl
  | succ f1 ih =>
    intro f2 n h1 h2
    match n, f2 with
    | 0, f2 => cases f2 <;> rfl
    | n + 1, 0 => omega
    | n + 1, f2 + 1 =>
      simp only [compositionsF]
      congr 1
      funext k
      congr 1
      exact ih f2 (n - k) (by omega) (by omega)

theorem countP_flatMap_sum {α β : Type} (p : β → Bool) (l : List α) (f : α → List β) :
    (l.flatMap f).countP p = (l.map (fun a => (f a).countP p)).sum := by
  induction l with
  | nil => rfl
  | cons a rest ih => simp [List.flatMap_cons, List.countP_append, ih]

theorem findCombosF_length_eq_count (fuel : Nat) :
    ∀ syls : List GLMarker, syls.length ≤ fuel → GLMarker.emptyMark ∉ syls →
      (findCombosF fuel syls).length =
        (compositionsF syls.length syls.length).countP
          (fun lens => (sliceBy lens syls).all (fun seg => (flat_gana_lookup seg).isSome)) := by
  induction fuel with
  | zero =>
    intro syls hlen hne
    match syls with
    | [] => rfl
    | x :: xs => simp at hlen
  | succ fuel ih =>
    intro syls hlen hne
    match syls with
    | [] => rfl
    | x :: xs =>
      simp only [findCombosF, List.length_cons] at hlen ⊢
      rw [List.length_flatMap]
      have hcomp : compositionsF (xs.length + 1) (xs.length + 1) =
          (List.range (xs.length + 1)).flatMap
            (fun k => (compositionsF xs.length (xs.length - k)).map
              (fun lens => (k + 1) :: lens)) := rfl
      rw [hcomp, countP_flatMap_sum]
      congr 1
      apply List.map_congr_left
      intro j hj
      rw [List.mem_range] at hj
      have hpre : joinMarkers ((x :: xs).take (j + 1)) = (x :: xs).take (j + 1) :=
        joinMarkers_eq_self _ (fun hc => hne (List.take_subset _ _ hc))
      have hdlen : ((x :: xs).drop (j + 1)).length = xs.length - j := by
        rw [List.length_drop]
        simp only [List.length_cons]
        omega
      have hdne : GLMarker.emptyMark ∉ (x :: xs).drop (j + 1) :=
        fun hc => hne (List.drop_subset _ _ hc)
      simp only [Function.comp_apply, hpre, List.countP_map]
      cases hlk : flat_gana_lookup ((x :: xs).take (j + 1)) with
      | none =>
        rw [List.countP_eq_zero.mpr]
        · rfl
        · intro lens _
          simp only [sliceBy, List.all_cons, hlk, Option.isSome_none, Bool.false_and,
            Function.comp_apply]
          exact fun hcon => by cases hcon
      | some nm =>
        rw [List.length_map]
        have hC : compositionsF xs.length (xs.length - j) =
            compositionsF ((x :: xs).drop (j + 1)).length ((x :: xs).drop (j + 1)).length := by
          rw [hdlen]
          exact compositionsF_fuel_irrel xs.length (xs.length - j) (xs.length - j)
            (by omega) (by omega)
        have hfun : ((fun lens => (sliceBy lens (x :: xs)).all
              (fun seg => (flat_gana_lookup seg).isSome)) ∘ (fun lens => (j + 1) :: lens)) =
            (fun lens => (sliceBy lens ((x :: xs).drop (j + 1))).all
              (fun seg => (flat_gana_lookup seg).isSome)) := by
          funext lens
          simp only [Function.comp_apply, sliceBy, List.all_cons, hlk, Option.isSome_some,
            Bool.true_and]
        rw [hfun, hC]
        exact ih _ (by rw [List.length_drop]; simp only [List.length_cons]; omega) hdne

theorem find_sequential_combinations_count (syls : List GLMarker)
    (hne : GLMarker.emptyMark ∉ syls) :
    (find_sequential_combinations syls).length = bruteForceTilingCount syls :=
  findCombosF_length_eq_count syls.length syls (Nat.le_refl _) hne

/-- C5: `find_sequential_combinations` returns exactly the ordered sequences
of (pattern, name) pairs drawn from the flattened gana pattern table that
tile the input weight sequence; and for every weight sequence of length at
most 6, the number of returned decompositions equals the brute-force count
over all cut-point combinations checked against the table. -/
theorem C5_enumerator_complete (syls : List GLMarker)
    (hne : GLMarker.emptyMark ∉ syls) :
    (∀ combo : List GanaInfo,
      combo ∈ find_sequential_combinations syls ↔ IsGanaTiling combo syls) ∧
    (syls.length ≤ 6 →
      (find_sequential_combinations syls).length = bruteForceTilingCount syls) := by
  constructor
  · exact fun combo =>
      findCombosF_mem_iff syls.length syls (Nat.le_refl _) hne combo
  · intro _hlen
    exact find_sequential_combinations_count syls hne

theorem C5_enumerator_complete_witness :
    (([⟨"Lalamu", [gI, gI]⟩] : List GanaInfo) ∈ find_sequential_combinations [gI, gI]) ∧
      (find_sequential_combinations [gI, gI]).length = bruteForceTilingCount [gI, gI] :=
  ⟨((C5_enumerator_complete [gI, gI] (by decide)).1 [⟨"Lalamu", [gI, gI]⟩]).mpr
      (by decide),
   (C5_enumerator_complete [gI, gI] (by decide)).2 (by decide)⟩
